import Mathlib

/-!
Formal model of the date add-days API core: the timestamp
normalization / day-arithmetic engine and the quoted-list tokenizer,
translated from `src/server.js` and the richer variant in
`src/unnamed/part_000`.  Host (JavaScript runtime) primitives such as
`JSON.parse`, `Date.parse`, `Number`, `BigInt` and
`Date.prototype.toISOString` are not part of the repository; they are
modelled as fields of a `Platform` structure, constrained only by facts
that hold for every conforming JavaScript engine.
-/

namespace DateAddDays

/-- An exact timestamp: arbitrary-precision seconds plus a nanosecond part.
Mirrors the `{ seconds: BigInt, nanos: Number }` pairs of the source. -/
structure Instant where
  seconds : Int
  nanos : Int
deriving DecidableEq

/-- Translation of `normalizeNanos(secondsBig, nanosInt)` (`src/server.js`
lines 54-67).  JavaScript `BigInt` division and remainder truncate toward
zero, hence `Int.tdiv` and `Int.tmod`; `borrow` from the source is inlined
(it appears twice below, written identically). -/
def normalizeNanos (secondsBig nanosInt : Int) : Instant :=
  if nanosInt ≥ 1000000000 then
    { seconds := secondsBig + nanosInt.tdiv 1000000000
      nanos := nanosInt.tmod 1000000000 }
  else if nanosInt < 0 then
    { seconds := secondsBig - (-nanosInt + 1000000000 - 1).tdiv 1000000000
      nanos := nanosInt + (-nanosInt + 1000000000 - 1).tdiv 1000000000 * 1000000000 }
  else
    { seconds := secondsBig, nanos := nanosInt }

/-- Kinds of JavaScript `Number` values, keeping exactly the information the
engines inspect: integer-valued finite numbers carry their exact value;
other finite numbers, `NaN` and the two infinities are distinguished because
`Number.isFinite`, `Number.isInteger` and `BigInt` branch on them. -/
inductive JSNum where
  | int (v : Int)
  | nonint
  | nan
  | posInf
  | negInf
deriving DecidableEq

/-- Result of `Number.isFinite` on a modelled number. -/
def JSNum.isFinite : JSNum → Bool
  | .int _ => true
  | .nonint => true
  | _ => false

/-- JavaScript values the engines can receive (the JSON value grammar). -/
inductive JSValue where
  | null
  | bool (b : Bool)
  | num (k : JSNum)
  | str (s : String)
  | arr (elems : List JSValue)
  | obj (fields : List (String × JSValue))

/-- Property access on an object: the value of the last binding of `key`
(with duplicate keys, `JSON.parse` keeps the last one), or `none` when the
property is absent. -/
def jsGet (fields : List (String × JSValue)) (key : String) : Option JSValue :=
  fields.foldl (fun acc kv => if kv.1 = key then some kv.2 else acc) none

/-- Drop leading and trailing whitespace from a character list. -/
def trimChars (cs : List Char) : List Char :=
  ((cs.dropWhile Char.isWhitespace).reverse.dropWhile Char.isWhitespace).reverse

/-- Model of `String.prototype.trim` (the engines only meet ASCII
whitespace, where the JavaScript and Lean notions agree). -/
def jsTrim (s : String) : String := String.mk (trimChars s.data)

/-- The opening-brace character, written by code point to keep string
literals free of raw braces. -/
def braceOpen : Char := Char.ofNat 123

/-- Host-runtime primitives used by the engines.  They live outside the
repository, so they are parameters; the two bundled laws hold for every
JavaScript engine: `Number` applied to a number returns it unchanged, and
`Date.parse` never returns a time value outside the ECMAScript date range
of 8.64e15 milliseconds around the epoch. -/
structure Platform where
  jsonParse : String → Option JSValue
  dateParse : String → Option Int
  isoFull : Int → String
  toBigInt : JSValue → Option Int
  toNumber : JSValue → JSNum
  toNumber_num : ∀ k, toNumber (.num k) = k
  dateParse_range : ∀ s ms, dateParse s = some ms → ms.natAbs ≤ 8640000000000000

/-- Error outcomes of the engines; each constructor stands for one thrown
JavaScript error.  Messages, in constructor order: the nanos finiteness
message `timestamp.nanos must be finite`; the invalid-ISO message
`Invalid ISO date string. Use e.g. 2025-08-17T00:00:00Z or pass
(seconds,nanos)`; the unsupported-shape message `Provide "date" as ISO
string, stringified or plain (seconds,nanos) object`; the days message
`days must be an integer`; a host `BigInt()` conversion error; and the
host `RangeError: Invalid time value` from `toISOString` on an invalid
date. -/
inductive ParseErr where
  | nanosNotFinite
  | invalidIso
  | unsupported
  | daysNotInteger
  | bigintConv
  | invalidTime
deriving DecidableEq

deriving instance DecidableEq for Except

/-- Model of `Number(asObj.nanos ?? 0)`: a missing or `null` field yields
the number 0, any other field value goes through the host `Number`
coercion. -/
def nanosRaw (p : Platform) (fields : List (String × JSValue)) : JSNum :=
  match jsGet fields "nanos" with
  | none => .int 0
  | some .null => .int 0
  | some v => p.toNumber v

/-- ISO-8601 branch of `parseInputToEpoch` (`src/server.js` lines 93-100).
`Math.floor(ms / 1000)` is flooring division, hence `Int.fdiv`; the
JavaScript remainder `%` truncates, hence the `Int.tmod` chain modelling
`(ms % 1000 + 1000) % 1000`.  Within the ECMAScript time-value range both
floating-point computations are exact. -/
def isoPath (p : Platform) (t : String) : Except ParseErr Instant :=
  match p.dateParse t with
  | none => .error .invalidIso
  | some ms =>
      .ok (normalizeNanos (ms.fdiv 1000) ((ms.tmod 1000 + 1000).tmod 1000 * 1000000))

/-- The stringified-JSON attempt of `parseInputToEpoch` (`src/server.js`
lines 80-92).  The whole attempt sits inside a try block whose catch falls
through, so every throw inside it — a host `JSON.parse` failure, the
`BigInt(asObj.seconds)` conversion, the nanos finiteness check, and the
`BigInt(nanosInt)` conversion inside `normalizeNanos` when nanos is a
non-integer finite number — yields `none` (fallthrough), as does a decoded
value that is not an object with a `seconds` property.
`trimmed.startsWith(brace)` is the head-character test. -/
def jsonAttempt (p : Platform) (t : String) : Option Instant :=
  if t.data.head? = some braceOpen then
    match p.jsonParse t with
    | some (.obj fields) =>
      match jsGet fields "seconds" with
      | none => none
      | some sv =>
        match p.toBigInt sv with
        | none => none
        | some sec =>
          match nanosRaw p fields with
          | .int n => some (normalizeNanos sec n)
          | _ => none
    | _ => none
  else none

/-- Translation of `parseInputToEpoch` (`src/server.js` lines 75-112; the
variant in `src/unnamed/part_000` lines 79-118 is identical up to message
punctuation).  A string is trimmed, run through the caught stringified-JSON
attempt, and falls through to the ISO branch whenever that attempt does not
return.  The object branch repeats the seconds/nanos extraction with no
handler, so there the throws propagate. -/
def parseInputToEpoch (p : Platform) : JSValue → Except ParseErr Instant
  | .str s =>
    match jsonAttempt p (jsTrim s) with
    | some i => .ok i
    | none => isoPath p (jsTrim s)
  | .obj fields =>
    match jsGet fields "seconds" with
    | none => .error .unsupported
    | some sv =>
      match p.toBigInt sv with
      | none => .error .bigintConv
      | some sec =>
        match nanosRaw p fields with
        | .int n => .ok (normalizeNanos sec n)
        | .nonint => .error .bigintConv
        | _ => .error .nanosNotFinite
  | _ => .error .unsupported

/-- The rendered output record of `epochToOutputs`: calendar date, ISO
timestamp truncated to whole seconds, and the exact timestamp pair with
`seconds` as a decimal string. -/
structure AddDaysResult where
  date_ymd : String
  date_iso : String
  ts_seconds : String
  ts_nanos : Int
deriving DecidableEq

/-- Model of `new Date(ms).toISOString()`: defined exactly on the
ECMAScript time-value range and throwing (`none`) outside it.  Within the
range the source computation `Number(seconds) * 1000 +
Math.floor(nanos / 1e6)` is exact — every integer of magnitude at most
8.64e15 plus 999 is an exact double — and outside it the floating-point
value is also out of range, so an integer `ms` loses nothing. -/
def jsToISOString (p : Platform) (ms : Int) : Option String :=
  if ms.natAbs ≤ 8640000000000000 then some (p.isoFull ms) else none

/-- Translation of `epochToOutputs` (`src/unnamed/part_000` lines 120-132;
the `src/server.js` variant at lines 114-123 omits `date_iso`).  The
slices `toISOString().slice(0, 10)` and `slice(0, 19) + "Z"` are
character-level truncations of the millisecond ISO rendering. -/
def epochToOutputs (p : Platform) (secondsBig nanosInt : Int) :
    Except ParseErr AddDaysResult :=
  let i := normalizeNanos secondsBig nanosInt
  let ms := i.seconds * 1000 + i.nanos.fdiv 1000000
  match jsToISOString p ms with
  | none => .error .invalidTime
  | some isoF =>
      .ok { date_ymd := String.mk (isoF.data.take 10)
            date_iso := String.mk (isoF.data.take 19) ++ "Z"
            ts_seconds := toString i.seconds
            ts_nanos := i.nanos }

/-- Test of the regular expression `^-?\d+$` (a digit is `0`-`9`). -/
def matchesIntRe (s : String) : Bool :=
  match s.data with
  | '-' :: ds => !ds.isEmpty && ds.all Char.isDigit
  | ds => !ds.isEmpty && ds.all Char.isDigit

/-- Decimal value of a digit sequence. -/
def decDigitsVal (ds : List Char) : Nat :=
  ds.foldl (fun a c => a * 10 + (c.toNat - 48)) 0

/-- Integer denoted by a string matching `^-?\d+$`; on such strings this is
exactly what the host `BigInt` constructor returns. -/
def strToIntLit (s : String) : Int :=
  match s.data with
  | '-' :: ds => -(decDigitsVal ds : Int)
  | ds => (decDigitsVal ds : Int)

/-- Translation of `parseDays` (`src/server.js` lines 125-129): a native
integer-valued number is taken exactly (`Number.isInteger` admits just the
`JSNum.int` case); a string is accepted iff it matches `^-?\d+$`; anything
else throws the days error. -/
def parseDays : JSValue → Except ParseErr Int
  | .num (.int v) => .ok v
  | .str s => if matchesIntRe s then .ok (strToIntLit s) else .error .daysNotInteger
  | _ => .error .daysNotInteger

/-- Translation of `handleAddDays` (`src/server.js` lines 131-136):
parse the date, parse the day delta, shift seconds by `days * 86400`
(`SEC_PER_DAY = 86400n`), re-render. -/
def handleAddDays (p : Platform) (date days : JSValue) :
    Except ParseErr AddDaysResult := do
  let i ← parseInputToEpoch p date
  let d ← parseDays days
  epochToOutputs p (i.seconds + d * 86400) i.nanos

/-- The single-quote character, written by code point. -/
def squote : Char := Char.ofNat 39

/-- Push the trimmed buffer as a token when it is non-empty, modelling
`const token = buf.trim(); if (token) items.push(token);`. -/
def pushTok (items : List (List Char)) (buf : List Char) : List (List Char) :=
  if trimChars buf = [] then items else items ++ [trimChars buf]

/-- Character scan of `parseStringList` (`src/unnamed/part_000` lines
170-196).  State: remaining input, the open quote character when inside a
quoted span, the current token buffer, the tokens produced so far.  Inside
a span, a backslash consumes the following character literally only when
one exists (`i + 1 < raw.length`); a trailing backslash is buffered
verbatim.  Outside, a double or single quote opens a span without being
buffered, and a comma flushes the buffer. -/
def scan : List Char → Option Char → List Char → List (List Char) → List (List Char)
  | [], _, buf, items => pushTok items buf
  | c :: cs, some q, buf, items =>
    if c = q then scan cs none buf items
    else if c = '\\' then
      match cs with
      | d :: ds => scan ds (some q) (buf ++ [d]) items
      | [] => pushTok items (buf ++ [c])
    else scan cs (some q) (buf ++ [c]) items
  | c :: cs, none, buf, items =>
    if c = '"' ∨ c = squote then scan cs (some c) buf items
    else if c = ',' then scan cs none [] (pushTok items buf)
    else scan cs none (buf ++ [c]) items

/-- The redundant safety pass of `parseStringList` (`src/unnamed/part_000`
lines 199-205): a token still wrapped in a matching pair of quote
characters loses its first and last characters (`slice(1, -1)`, which on a
one-character token yields the empty string). -/
def stripWrap (t : List Char) : List Char :=
  if (t.head? = some '"' ∧ t.getLast? = some '"')
      ∨ (t.head? = some squote ∧ t.getLast? = some squote) then
    (t.drop 1).dropLast
  else t

/-- Translation of the string case of `parseStringList`
(`src/unnamed/part_000` lines 162-206): trim, return no tokens for the
empty string, scan, then map each token through the safety pass plus a
final trim and drop empties. -/
def parseStringListStr (input : String) : List String :=
  let raw := jsTrim input
  if raw.data = [] then []
  else
    (((scan raw.data none [] []).map (fun t => trimChars (stripWrap t))).filter
      (fun t => t ≠ [])).map (fun t => String.mk t)

/-- Translation of the array case of `parseStringList`
(`input.map(v => String(v).trim()).filter(Boolean)`); elements are taken
after the host `String(v)` coercion, which is the identity on strings. -/
def parseStringListArr (xs : List String) : List String :=
  (xs.map fun x => jsTrim x).filter fun x => x ≠ ""

/-- Escape a character sequence for inclusion in a span quoted with `q`:
characters that would terminate the span (`q` itself) or start an escape
(a backslash) are preceded by a backslash; every other character stands
for itself. -/
def escWith (q : Char) (cs : List Char) : List Char :=
  cs.flatMap fun c => if c = q ∨ c = '\\' then ['\\', c] else [c]

/-- Concrete platform for the closed instances.  Every field below agrees
with the behavior an actual JavaScript engine is mandated (or universally
observed) to produce at each point where a theorem evaluates it: the one
tabulated `JSON.parse` result, the two tabulated `Date.parse` results and
the rejection of everything else in the table, the two tabulated
`toISOString` renderings, decimal-string `BigInt` conversion, and `Number`
coercion on numbers, `null`, booleans and decimal strings. -/
def hostJS : Platform where
  jsonParse := fun s =>
    if s = "\x7b\"seconds\":1,\"nanos\":\"x\"\x7d" then
      some (.obj [("seconds", .num (.int 1)), ("nanos", .str "x")])
    else none
  dateParse := fun s =>
    if s = "1970-01-01T00:00:00Z" then some 0
    else if s = "1969-12-31T23:59:59.999Z" then some (-1)
    else none
  isoFull := fun ms =>
    if ms = 0 then "1970-01-01T00:00:00.000Z"
    else if ms = 1 then "1970-01-01T00:00:00.001Z"
    else ""
  toBigInt := fun v =>
    match v with
    | .num (.int k) => some k
    | .str s => if matchesIntRe s then some (strToIntLit s) else none
    | _ => none
  toNumber := fun v =>
    match v with
    | .num k => k
    | .null => .int 0
    | .bool b => .int (if b then 1 else 0)
    | .str s => if matchesIntRe s then .int (strToIntLit s) else .nan
    | _ => .nan
  toNumber_num := fun _ => rfl
  dateParse_range := by
    intro s ms h
    dsimp only at h
    split_ifs at h <;> (try simp_all) <;> omega

/-! Helper lemmas shared by the claim theorems. -/

/-- Normalization is the identity on an already-valid nanosecond part. -/
theorem normalizeNanos_eq_self {s n : Int} (h0 : 0 ≤ n) (h1 : n ≤ 999999999) :
    normalizeNanos s n = ⟨s, n⟩ := by
  unfold normalizeNanos
  split_ifs with ha hb <;> first | rfl | omega

/-- The JavaScript remainder idiom `(ms % 1000 + 1000) % 1000` (truncating
remainder) computes the euclidean remainder. -/
theorem jsRem_eq_emod (ms : Int) :
    (ms.tmod 1000 + 1000).tmod 1000 = ms % 1000 := by
  rcases le_or_lt 0 ms with h | h
  · have h1 : 0 ≤ ms % 1000 := Int.emod_nonneg ms (by omega)
    rw [Int.tmod_eq_emod h (by omega), Int.tmod_eq_emod (by omega) (by omega)]
    omega
  · have hneg : ms.tmod 1000 = ms + 1000 * ((-ms) / 1000) := by
      have h2 : ms.tdiv 1000 = -((-ms).tdiv 1000) := by
        have := Int.neg_tdiv (-ms) 1000
        rw [Int.neg_neg] at this
        omega
      rw [Int.tmod_def, h2, Int.tdiv_eq_ediv (by omega) (by omega)]
      ring
    have hb : 0 ≤ ms + 1000 * ((-ms) / 1000) + 1000 := by omega
    rw [hneg, Int.tmod_eq_emod hb (by omega)]
    omega

/-- `Math.floor(ms / 1000)` agrees with euclidean division by 1000. -/
theorem jsFloor_eq_ediv (ms : Int) : ms.fdiv 1000 = ms / 1000 :=
  Int.fdiv_eq_ediv ms (by omega)

/-- A successful platform date parse is turned into the floored-seconds,
non-negative-remainder instant. -/
theorem isoPath_ok (p : Platform) (t : String) (ms : Int)
    (h : p.dateParse t = some ms) :
    isoPath p t = .ok ⟨ms / 1000, ms % 1000 * 1000000⟩ := by
  unfold isoPath
  rw [h]
  have h0 : 0 ≤ ms % 1000 := Int.emod_nonneg ms (by omega)
  have h1 : ms % 1000 < 1000 := Int.emod_lt_of_pos ms (by omega)
  dsimp only
  rw [jsRem_eq_emod, jsFloor_eq_ediv, normalizeNanos_eq_self (by omega) (by omega)]

/-- Dropping a prefix twice is the same as dropping it once. -/
theorem dropWhile_dropWhile {α : Type} (p : α → Bool) (l : List α) :
    (l.dropWhile p).dropWhile p = l.dropWhile p := by
  induction l with
  | nil => rfl
  | cons c cs ih =>
    by_cases h : p c
    · simpa [List.dropWhile, h] using ih
    · simp [List.dropWhile, h]

/-- The trimmed form of a list is itself trim-fixed. -/
theorem trimChars_trimChars (l : List Char) :
    trimChars (trimChars l) = trimChars l := by
  unfold trimChars
  set w := Char.isWhitespace with hw
  set A := l.dropWhile w with hA
  set B := A.reverse.dropWhile w with hB
  have hAfix : A.dropWhile w = A := by rw [hA]; exact dropWhile_dropWhile w l
  have hBfix : B.dropWhile w = B := by rw [hB]; exact dropWhile_dropWhile w A.reverse
  have hsplit0 : A = B.reverse ++ (A.reverse.takeWhile w).reverse := by
    have hsum : A.reverse.takeWhile w ++ B = A.reverse := by
      rw [hB]; exact List.takeWhile_append_dropWhile w A.reverse
    calc A = A.reverse.reverse := (List.reverse_reverse A).symm
      _ = (A.reverse.takeWhile w ++ B).reverse := by rw [hsum]
      _ = B.reverse ++ (A.reverse.takeWhile w).reverse := by rw [List.reverse_append]
  obtain ⟨T, hsplit⟩ : ∃ T : List Char, A = B.reverse ++ T := ⟨_, hsplit0⟩
  have hstep1 : B.reverse.dropWhile w = B.reverse := by
    rcases hBr : B.reverse with _ | ⟨c, cs⟩
    · rfl
    · have hACT : A = c :: (cs ++ T) := by
        rw [hsplit, hBr, List.cons_append]
      rcases hc : w c with _ | _
      · simp [List.dropWhile_cons, hc]
      · exfalso
        have h2 : (cs ++ T).dropWhile w = c :: (cs ++ T) := by
          have h0 := hAfix
          rw [hACT] at h0
          simpa [List.dropWhile_cons, hc] using h0
        have h3 := congrArg List.length h2
        have h4 := (List.dropWhile_sublist (l := cs ++ T) w).length_le
        simp only [List.length_cons] at h3
        omega
  rw [hstep1, List.reverse_reverse, hBfix]

/-- Unfolding of the string branch of the parser. -/
theorem parse_str_eq (p : Platform) (s : String) :
    parseInputToEpoch p (.str s)
      = match jsonAttempt p (jsTrim s) with
        | some i => .ok i
        | none => isoPath p (jsTrim s) := rfl

/-- Unfolding of the object branch of the parser. -/
theorem parse_obj_eq (p : Platform) (fields : List (String × JSValue)) :
    parseInputToEpoch p (.obj fields)
      = match jsGet fields "seconds" with
        | none => .error .unsupported
        | some sv =>
          match p.toBigInt sv with
          | none => .error .bigintConv
          | some sec =>
            match nanosRaw p fields with
            | .int n => .ok (normalizeNanos sec n)
            | .nonint => .error .bigintConv
            | _ => .error .nanosNotFinite := rfl

/-- Scanner step: inside a span, the matching quote closes it. -/
theorem scan_some_close (q : Char) (cs buf : List Char)
    (items : List (List Char)) :
    scan (q :: cs) (some q) buf items = scan cs none buf items := by
  rw [scan.eq_def]
  dsimp only
  rw [if_pos rfl]

/-- Scanner step: inside a span, a backslash consumes the next character
into the buffer. -/
theorem scan_some_esc (q d : Char) (ds buf : List Char)
    (items : List (List Char)) (h : ¬(('\\' : Char) = q)) :
    scan ('\\' :: d :: ds) (some q) buf items
      = scan ds (some q) (buf ++ [d]) items := by
  rw [scan.eq_def]
  dsimp only
  rw [if_neg h, if_pos rfl]

/-- Scanner step: inside a span, any other character is buffered. -/
theorem scan_some_other (q c : Char) (cs buf : List Char)
    (items : List (List Char)) (h1 : ¬(c = q)) (h2 : ¬(c = '\\')) :
    scan (c :: cs) (some q) buf items
      = scan cs (some q) (buf ++ [c]) items := by
  rw [scan.eq_def]
  dsimp only
  rw [if_neg h1, if_neg h2]

/-- Scanner step: outside a span, a quote character opens one. -/
theorem scan_none_open (c : Char) (cs buf : List Char)
    (items : List (List Char)) (h : c = '"' ∨ c = squote) :
    scan (c :: cs) none buf items = scan cs (some c) buf items := by
  rw [scan.eq_def]
  dsimp only
  rw [if_pos h]

/-- Scanner step: outside a span, any character that is not a quote or a
comma is buffered. -/
theorem scan_none_other (c : Char) (cs buf : List Char)
    (items : List (List Char))
    (h1 : ¬(c = '"' ∨ c = squote)) (h2 : ¬(c = ',')) :
    scan (c :: cs) none buf items = scan cs none (buf ++ [c]) items := by
  rw [scan.eq_def]
  dsimp only
  rw [if_neg h1, if_neg h2]

/-- Scanning a quoted span: after the opening quote the escaped body is
copied verbatim into the buffer and the matching close quote ends the span,
leaving the scanner outside a span with the body appended. -/
theorem scan_escaped_span (q : Char) (hq : q = '"' ∨ q = squote)
    (cs : List Char) :
    ∀ (rest buf : List Char) (items : List (List Char)),
      scan (escWith q cs ++ q :: rest) (some q) buf items
        = scan rest none (buf ++ cs) items := by
  have hqbs : ¬(('\\' : Char) = q) := by
    rcases hq with h | h <;> (subst h; decide)
  induction cs with
  | nil =>
    intro rest buf items
    have h : escWith q [] = [] := rfl
    rw [h, List.nil_append, scan_some_close, List.append_nil]
  | cons c cs ih =>
    intro rest buf items
    by_cases hc : c = q ∨ c = '\\'
    · have hesc : escWith q (c :: cs) = '\\' :: (c :: escWith q cs) := by
        simp [escWith, hc]
      rw [hesc, List.cons_append, List.cons_append,
        scan_some_esc q c (escWith q cs ++ q :: rest) buf items hqbs,
        ih rest (buf ++ [c]) items, List.append_assoc, List.singleton_append]
    · push_neg at hc
      have hesc : escWith q (c :: cs) = c :: escWith q cs := by
        simp [escWith, hc.1, hc.2]
      rw [hesc, List.cons_append,
        scan_some_other q c (escWith q cs ++ q :: rest) buf items hc.1 hc.2,
        ih rest (buf ++ [c]) items, List.append_assoc, List.singleton_append]

/-- Claim C1: for all integer inputs, `normalizeNanos` lands `nanos` in
`[0, 999999999]` and denotes the same point in time
(`seconds * 10^9 + nanos` is preserved); in particular
`normalizeNanos 10 (-1)` borrows to `(9, 999999999)` and
`normalizeNanos 0 2500000000` folds to `(2, 500000000)`. -/
theorem C1_normalize_correct (s n : Int) :
    0 ≤ (normalizeNanos s n).nanos ∧ (normalizeNanos s n).nanos ≤ 999999999 ∧
    (normalizeNanos s n).seconds * 1000000000 + (normalizeNanos s n).nanos
      = s * 1000000000 + n ∧
    normalizeNanos 10 (-1) = ⟨9, 999999999⟩ ∧
    normalizeNanos 0 2500000000 = ⟨2, 500000000⟩ := by
  refine ⟨?_, ?_, ?_, by decide, by decide⟩ <;>
    (unfold normalizeNanos; split_ifs with h1 h2 <;> dsimp only) <;>
    first
      | omega
      | (rw [Int.tmod_eq_emod (by omega) (by omega)]; omega)
      | (rw [Int.tdiv_eq_ediv (by omega) (by omega),
             Int.tmod_eq_emod (by omega) (by omega)]; omega)
      | (rw [Int.tdiv_eq_ediv (by omega) (by omega)]; omega)

/-- Claim C2: on a valid instant the day-addition step shifts seconds by
`days * 86400` and leaves nanos unchanged (the trailing normalization is
the identity there), and the documented structured-input example renders
`timestamp.seconds` as the decimal string of `1608826790 - 864000`. -/
theorem C2_addDays_step (i : Instant) (d : Int)
    (h0 : 0 ≤ i.nanos) (h1 : i.nanos ≤ 999999999) :
    normalizeNanos (i.seconds + d * 86400) i.nanos
      = ⟨i.seconds + d * 86400, i.nanos⟩ ∧
    (handleAddDays hostJS
        (.obj [("seconds", .str "1608826790"), ("nanos", .num (.int 0))])
        (.num (.int (-10)))).map AddDaysResult.ts_seconds
      = .ok (toString ((1608826790 : Int) - 864000)) :=
  ⟨normalizeNanos_eq_self h0 h1, by decide⟩

/-- Witness for C2 at the instant `(5, 250)` with three days added. -/
theorem C2_addDays_step_witness :
    normalizeNanos (5 + 3 * 86400) 250 = ⟨5 + 3 * 86400, 250⟩ ∧
    (handleAddDays hostJS
        (.obj [("seconds", .str "1608826790"), ("nanos", .num (.int 0))])
        (.num (.int (-10)))).map AddDaysResult.ts_seconds
      = .ok (toString ((1608826790 : Int) - 864000)) :=
  C2_addDays_step ⟨5, 250⟩ 3 (by decide) (by decide)

/-- Counterexample to claim C5 as stated: at seconds `10^15` (nanos 0) the
derived millisecond value `10^18` lies outside the ECMAScript date range,
so `toISOString` throws and rendering fails instead of succeeding. -/
theorem C5_cex :
    epochToOutputs hostJS 1000000000000000 0 = .error .invalidTime := by
  decide

/-- Claim C5 amended: rendering emits `timestamp.seconds` as the exact
decimal string of the arbitrary-precision seconds value (and `nanos`
unchanged), but it only succeeds while the derived millisecond value fits
the ECMAScript date range; beyond that range the `toISOString` call
throws instead. -/
theorem C5_render_amended (p : Platform) (s n : Int)
    (h0 : 0 ≤ n) (h1 : n ≤ 999999999)
    (hr : (s * 1000 + n.fdiv 1000000).natAbs ≤ 8640000000000000) :
    epochToOutputs p s n
      = .ok ⟨String.mk ((p.isoFull (s * 1000 + n.fdiv 1000000)).data.take 10),
             String.mk ((p.isoFull (s * 1000 + n.fdiv 1000000)).data.take 19) ++ "Z",
             toString s, n⟩ := by
  unfold epochToOutputs
  rw [normalizeNanos_eq_self h0 h1]
  dsimp only
  unfold jsToISOString
  rw [if_pos hr]

/-- Witness for C5 amended at the epoch instant. -/
theorem C5_render_amended_witness :
    epochToOutputs hostJS 0 0
      = .ok ⟨"1970-01-01", "1970-01-01T00:00:00Z", "0", 0⟩ :=
  C5_render_amended hostJS 0 0 (by decide) (by decide) (by decide)

/-- Claim C7: a string that does not enter the stringified-JSON branch is
parsed along the ISO path; there a failed platform date parse yields the
invalid-ISO error (never a default timestamp) — as for `not-a-date` — and
a successful parse with `ms` milliseconds yields floor-divided seconds and
a non-negative scaled remainder. -/
theorem C7_isoPath_spec (p : Platform) (s : String) :
    ((jsTrim s).data.head? ≠ some braceOpen →
      parseInputToEpoch p (.str s) = isoPath p (jsTrim s)) ∧
    (∀ t, p.dateParse t = none → isoPath p t = .error .invalidIso) ∧
    (∀ t ms, p.dateParse t = some ms →
      isoPath p t = .ok ⟨ms / 1000, ms % 1000 * 1000000⟩ ∧ 0 ≤ ms % 1000) ∧
    parseInputToEpoch hostJS (.str "not-a-date") = .error .invalidIso := by
  refine ⟨?_, ?_, ?_, by decide⟩
  · intro hnb
    have hJ : jsonAttempt p (jsTrim s) = none := by
      unfold jsonAttempt; rw [if_neg hnb]
    rw [parse_str_eq, hJ]
  · intro t ht
    unfold isoPath
    rw [ht]
  · intro t ms hms
    exact ⟨isoPath_ok p t ms hms, Int.emod_nonneg ms (by omega)⟩

/-- Witness for C7 at a negative-millisecond parse result: the remainder
is folded to stay non-negative (floored, not truncated, division). -/
theorem C7_isoPath_spec_witness :
    isoPath hostJS "1969-12-31T23:59:59.999Z"
      = .ok ⟨(-1 : Int) / 1000, (-1 : Int) % 1000 * 1000000⟩ ∧
    0 ≤ (-1 : Int) % 1000 :=
  (C7_isoPath_spec hostJS "x").2.2.1 "1969-12-31T23:59:59.999Z" (-1) (by decide)

/-- Counterexample to claim C3 as stated: for the stringified object with
seconds 1 and nanos `"x"` — whose JSON decoding is an object with a
`seconds` field and whose `nanos` does not coerce to a finite number —
the parser does not report the nanos-must-be-finite error: the throw is
swallowed by the JSON catch, the input falls through to the ISO branch
and fails there with the invalid-ISO error. -/
theorem C3_cex :
    parseInputToEpoch hostJS (.str "\x7b\"seconds\":1,\"nanos\":\"x\"\x7d")
      = .error .invalidIso ∧
    ParseErr.invalidIso ≠ ParseErr.nanosNotFinite := by
  exact ⟨by decide, by decide⟩

/-- Claim C3 amended: when the trimmed input starts with a brace, decodes
to an object carrying a `seconds` field and its `nanos` field does not
coerce to a finite number, the parser falls through to the ISO branch
instead of failing with the nanos error; indeed no string input can ever
produce the nanos-must-be-finite error (it is reachable only for
non-string object inputs). -/
theorem C3_amended (p : Platform) (s : String)
    (fields : List (String × JSValue))
    (hb : (jsTrim s).data.head? = some braceOpen)
    (hj : p.jsonParse (jsTrim s) = some (.obj fields))
    (hsec : (jsGet fields "seconds").isSome = true)
    (hfin : (nanosRaw p fields).isFinite = false) :
    parseInputToEpoch p (.str s) = isoPath p (jsTrim s) ∧
    ∀ (q : Platform) (u : String),
      parseInputToEpoch q (.str u) ≠ .error .nanosNotFinite := by
  have hstr : ∀ (q : Platform) (u : String),
      parseInputToEpoch q (.str u) ≠ .error .nanosNotFinite := by
    intro q u
    rw [parse_str_eq]
    cases hJA : jsonAttempt q (jsTrim u) with
    | none =>
      dsimp only
      unfold isoPath
      cases q.dateParse (jsTrim u) <;> simp
    | some i => simp
  refine ⟨?_, hstr⟩
  have hJ : jsonAttempt p (jsTrim s) = none := by
    unfold jsonAttempt
    rw [if_pos hb, hj]
    dsimp only
    cases hg : jsGet fields "seconds" with
    | none => rfl
    | some sv =>
      dsimp only
      cases p.toBigInt sv with
      | none => rfl
      | some sec =>
        dsimp only
        cases hn : nanosRaw p fields with
        | int n => rw [hn] at hfin; simp [JSNum.isFinite] at hfin
        | nonint => rfl
        | nan => rfl
        | posInf => rfl
        | negInf => rfl
  rw [parse_str_eq, hJ]

/-- Witness for C3 amended at the concrete stringified input. -/
theorem C3_amended_witness :
    parseInputToEpoch hostJS (.str "\x7b\"seconds\":1,\"nanos\":\"x\"\x7d")
      = isoPath hostJS (jsTrim "\x7b\"seconds\":1,\"nanos\":\"x\"\x7d") :=
  (C3_amended hostJS "\x7b\"seconds\":1,\"nanos\":\"x\"\x7d"
      [("seconds", .num (.int 1)), ("nanos", .str "x")]
      (by decide) rfl (by decide) (by decide)).1

/-- Counterexample to claim C4 as stated: nanos 1000000 is a multiple of
1000000 and in range, yet the rendered `date_iso` is truncated to whole
seconds, so parsing it back yields nanos 0 and the ISO round trip is not
the identity on millisecond-multiple instants. -/
theorem C4_cex :
    epochToOutputs hostJS 0 1000000
      = .ok ⟨"1970-01-01", "1970-01-01T00:00:00Z", "0", 1000000⟩ ∧
    parseInputToEpoch hostJS (.str "1970-01-01T00:00:00Z") = .ok ⟨0, 0⟩ ∧
    Instant.mk 0 0 ≠ ⟨0, 1000000⟩ :=
  ⟨by decide, by decide, by decide⟩

/-- Claim C4 amended: the ISO round trip is exact precisely on whole-second
instants — `date_iso` carries no sub-second digits, so the platform
re-parses it to the whole-second time value — while the structured
seconds/nanos round trip is exact for every in-range nanos. -/
theorem C4_roundtrip_amended :
    (∀ (p : Platform) (i : Instant) (r : AddDaysResult),
      i.nanos = 0 →
      epochToOutputs p i.seconds i.nanos = .ok r →
      (jsTrim r.date_iso).data.head? ≠ some braceOpen →
      jsTrim r.date_iso = r.date_iso →
      p.dateParse r.date_iso = some (1000 * i.seconds) →
      parseInputToEpoch p (.str r.date_iso) = .ok i) ∧
    (∀ (p : Platform) (i : Instant),
      0 ≤ i.nanos → i.nanos ≤ 999999999 →
      p.toBigInt (.str (toString i.seconds)) = some i.seconds →
      parseInputToEpoch p
          (.obj [("seconds", .str (toString i.seconds)),
                 ("nanos", .num (.int i.nanos))]) = .ok i) := by
  constructor
  · intro p i r h0 hr hnb htr hdp
    obtain ⟨isec, inan⟩ := i
    dsimp only at h0 hdp ⊢
    subst h0
    have hJ : jsonAttempt p (jsTrim r.date_iso) = none := by
      unfold jsonAttempt; rw [if_neg hnb]
    rw [parse_str_eq, hJ]
    dsimp only
    rw [htr, isoPath_ok p r.date_iso (1000 * isec) hdp]
    have hs : 1000 * isec / 1000 = isec := by omega
    have hm : 1000 * isec % 1000 = 0 := by omega
    rw [hs, hm]
    norm_num
  · intro p i h0 h1 hbig
    obtain ⟨isec, inan⟩ := i
    dsimp only at h0 h1 hbig ⊢
    rw [parse_obj_eq]
    have hg1 : jsGet [("seconds", JSValue.str (toString isec)),
        ("nanos", JSValue.num (.int inan))] "seconds"
        = some (.str (toString isec)) := rfl
    have hg2 : nanosRaw p [("seconds", JSValue.str (toString isec)),
        ("nanos", JSValue.num (.int inan))] = .int inan := by
      unfold nanosRaw
      have hgn : jsGet [("seconds", JSValue.str (toString isec)),
          ("nanos", JSValue.num (.int inan))] "nanos"
          = some (.num (.int inan)) := rfl
      rw [hgn]
      exact p.toNumber_num _
    rw [hg1]
    dsimp only
    rw [hbig]
    dsimp only
    rw [hg2]
    dsimp only
    rw [normalizeNanos_eq_self h0 h1]

/-- Witness for C4 amended: the epoch instant survives the ISO round trip
through its rendered `date_iso`. -/
theorem C4_roundtrip_amended_witness :
    parseInputToEpoch hostJS (.str (AddDaysResult.date_iso
        ⟨"1970-01-01", "1970-01-01T00:00:00Z", "0", 0⟩)) = .ok ⟨0, 0⟩ :=
  C4_roundtrip_amended.1 hostJS ⟨0, 0⟩
    ⟨"1970-01-01", "1970-01-01T00:00:00Z", "0", 0⟩
    rfl (by decide) (by decide) (by decide) (by decide)

/-- Claim C6: `parseDays` succeeds exactly on native integer-valued
numbers and on strings matching the integer pattern (returning their
decimal value); everything else fails with the days error — in particular
the string `3.5`. -/
theorem C6_parseDays_spec :
    (∀ (v : JSValue) (k : Int),
      parseDays v = .ok k ↔
        v = .num (.int k) ∨
          ∃ s, v = .str s ∧ matchesIntRe s = true ∧ k = strToIntLit s) ∧
    (∀ v : JSValue, (∀ k : Int, parseDays v ≠ .ok k) →
      parseDays v = .error .daysNotInteger) ∧
    parseDays (.str "3.5") = .error .daysNotInteger := by
  refine ⟨?_, ?_, by decide⟩
  · intro v k
    constructor
    · intro h
      cases v with
      | null => exact absurd h (by simp [parseDays])
      | bool b => exact absurd h (by simp [parseDays])
      | arr es => exact absurd h (by simp [parseDays])
      | obj fs => exact absurd h (by simp [parseDays])
      | num kk =>
        cases kk with
        | int x =>
          left
          have hx : (Except.ok x : Except ParseErr Int) = .ok k := h
          rw [Except.ok.inj hx]
        | nonint => exact absurd h (by simp [parseDays])
        | nan => exact absurd h (by simp [parseDays])
        | posInf => exact absurd h (by simp [parseDays])
        | negInf => exact absurd h (by simp [parseDays])
      | str s =>
        by_cases hm : matchesIntRe s = true
        · right
          refine ⟨s, rfl, hm, ?_⟩
          have h2 : (if matchesIntRe s then (Except.ok (strToIntLit s) :
              Except ParseErr Int) else .error .daysNotInteger) = .ok k := h
          rw [if_pos hm] at h2
          rw [Except.ok.inj h2]
        · have h2 : (if matchesIntRe s then (Except.ok (strToIntLit s) :
              Except ParseErr Int) else .error .daysNotInteger) = .ok k := h
          rw [if_neg hm] at h2
          exact Except.noConfusion h2
    · intro h
      rcases h with h | ⟨s, hv, hm, hk⟩
      · rw [h]; rfl
      · rw [hv, hk]
        show (if matchesIntRe s then (Except.ok (strToIntLit s) :
            Except ParseErr Int) else .error .daysNotInteger) = _
        rw [if_pos hm]
  · intro v h
    cases v with
    | null => rfl
    | bool b => rfl
    | arr es => rfl
    | obj fs => rfl
    | num kk =>
      cases kk with
      | int x => exact absurd rfl (h x)
      | nonint => rfl
      | nan => rfl
      | posInf => rfl
      | negInf => rfl
    | str s =>
      by_cases hm : matchesIntRe s = true
      · exact absurd (show parseDays (.str s) = .ok (strToIntLit s) by
          show (if matchesIntRe s then (Except.ok (strToIntLit s) :
              Except ParseErr Int) else .error .daysNotInteger) = _
          rw [if_pos hm]) (h (strToIntLit s))
      · show (if matchesIntRe s then (Except.ok (strToIntLit s) :
            Except ParseErr Int) else .error .daysNotInteger) = _
        rw [if_neg hm]

/-- Witness for C6: the string `-10` parses to the integer -10. -/
theorem C6_parseDays_spec_witness :
    parseDays (.str "-10") = .ok (-10) :=
  (C6_parseDays_spec.1 (.str "-10") (-10)).mpr
    (.inr ⟨"-10", rfl, by decide, by decide⟩)

/-- Claim C8: the scanner copies an entire quoted span — arbitrary content,
commas included — into the current token with the quotes dropped and each
backslash escape replaced by the escaped character alone; outside quotes a
backslash is an ordinary buffered character (no escape); and the
documented example yields exactly the two tokens `a"b` and `c`. -/
theorem C8_quoting_spec :
    (∀ (q : Char), q = '"' ∨ q = squote →
      ∀ (cs rest buf : List Char) (items : List (List Char)),
        scan (q :: (escWith q cs ++ q :: rest)) none buf items
          = scan rest none (buf ++ cs) items) ∧
    (∀ (c : Char) (rest buf : List Char) (items : List (List Char)),
        scan ('\\' :: c :: rest) none buf items
          = scan (c :: rest) none (buf ++ ['\\']) items) ∧
    parseStringListStr "\"a\\\"b\",c" = ["a\"b", "c"] := by
  refine ⟨?_, ?_, by decide⟩
  · intro q hq cs rest buf items
    rw [scan_none_open q _ buf items hq,
      scan_escaped_span q hq cs rest buf items]
  · intro c rest buf items
    exact scan_none_other '\\' (c :: rest) buf items (by decide) (by decide)

/-- Witness for C8: a quoted span containing an escaped quote and a comma
is copied verbatim. -/
theorem C8_quoting_spec_witness :
    scan ('"' :: (escWith '"' ['x', ','] ++ '"' :: [])) none [] []
      = scan [] none ([] ++ ['x', ',']) [] :=
  C8_quoting_spec.1 '"' (Or.inl rfl) ['x', ','] [] [] []

/-- Claim C9: every token produced by either entry form of
`parseStringList` is non-empty and already trimmed (hence non-empty after
trimming); the documented scenario drops the empty middle entry, and order
and duplicates are preserved as in the repeated-token scenario. -/
theorem C9_tokens_clean :
    (∀ (inp t : String), t ∈ parseStringListStr inp →
        t.data ≠ [] ∧ trimChars t.data = t.data) ∧
    (∀ (xs : List String) (t : String), t ∈ parseStringListArr xs →
        t.data ≠ [] ∧ trimChars t.data = t.data) ∧
    parseStringListStr "\"a\",, \"b\"" = ["a", "b"] ∧
    parseStringListStr "x, y, x" = ["x", "y", "x"] := by
  refine ⟨?_, ?_, by decide, by decide⟩
  · intro inp t ht
    simp only [parseStringListStr] at ht
    split_ifs at ht with hr
    · simp at ht
    · rw [List.mem_map] at ht
      obtain ⟨u, hu, rfl⟩ := ht
      rw [List.mem_filter] at hu
      obtain ⟨hu1, hu2⟩ := hu
      rw [List.mem_map] at hu1
      obtain ⟨v, hv, rfl⟩ := hu1
      constructor
      · intro hdata
        have hd2 : trimChars (stripWrap v) = [] := hdata
        rw [hd2] at hu2
        simp at hu2
      · show trimChars (trimChars (stripWrap v)) = trimChars (stripWrap v)
        exact trimChars_trimChars _
  · intro xs t ht
    unfold parseStringListArr at ht
    rw [List.mem_filter] at ht
    obtain ⟨h1, h2⟩ := ht
    rw [List.mem_map] at h1
    obtain ⟨x, hx, rfl⟩ := h1
    constructor
    · intro hdata
      have hd2 : trimChars x.data = [] := hdata
      have hempty : jsTrim x = "" := by
        show String.mk (trimChars x.data) = ""
        rw [hd2]
      rw [hempty] at h2
      simp at h2
    · show trimChars (trimChars x.data) = trimChars x.data
      exact trimChars_trimChars _

/-- Witness for C9: the middle token of the duplicates scenario is clean. -/
theorem C9_tokens_clean_witness :
    ("y" : String).data ≠ [] ∧
    trimChars ("y" : String).data = ("y" : String).data :=
  C9_tokens_clean.1 "x, y, x" "y" (by decide)

/-- Claim C10: the safety pass strips a matching outer quote pair —
including from a token that is a single quote character, which becomes the
empty string and is dropped — so the four-character input consisting of a
backslash-escaped quote inside a quoted span tokenizes to the empty list. -/
theorem C10_stripWrap_spec :
    (∀ (t : List Char) (q : Char), q = '"' ∨ q = squote →
        t.head? = some q → t.getLast? = some q →
        stripWrap t = (t.drop 1).dropLast) ∧
    stripWrap ['"'] = [] ∧
    parseStringListStr "\"\\\"\"" = [] := by
  refine ⟨?_, by decide, by decide⟩
  · intro t q hq h1 h2
    unfold stripWrap
    rcases hq with h | h <;> subst h
    · rw [if_pos (Or.inl ⟨h1, h2⟩)]
    · rw [if_pos (Or.inr ⟨h1, h2⟩)]

/-- Witness for C10: a token wrapped in double quotes loses both. -/
theorem C10_stripWrap_spec_witness :
    stripWrap ['"', 'a', '"'] = (((['"', 'a', '"'].drop 1)).dropLast) :=
  C10_stripWrap_spec.1 ['"', 'a', '"'] '"' (Or.inl rfl) rfl rfl

end DateAddDays
